import Mathlib

/-
Shallow embedding of the gating core of auth-spike.js (supabase-webflow-spike):
the protection dispatcher, the entitlement gate, the profile bootstrap and the
progress recorder, together with the store operations they issue.  Each Lean
definition is translated from the corresponding JavaScript function; traces of
store operations are made explicit as event lists so that ordering and
ownership properties can be stated.
-/

namespace AuthSpike

/-- A Supabase auth user: the code reads session.user.id and session.user.email. -/
structure SUser where
  id : String
  email : String
  deriving DecidableEq, Repr

/-- A session, as returned by supabaseClient.auth.getSession(); absent sessions
are modelled as `Option Session = none`. -/
structure Session where
  user : SUser
  deriving DecidableEq, Repr

/-- A row of the profiles table, restricted to the columns the gating core
reads and writes. -/
structure Profile where
  id : String
  email : String
  full_name : String
  avatar_url : String
  deriving DecidableEq, Repr

/-- A Supabase/PostgREST error object; only its code field is inspected by the
code (PGRST116 = no rows, 23505 = unique violation). -/
structure DbErr where
  code : String
  deriving DecidableEq, Repr

/-- Outcome of one awaited Supabase call: a resolved response carrying data, a
resolved response carrying an error object, or a rejected promise (a thrown
exception, caught by a surrounding try/catch where one exists). -/
inductive DbResp (α : Type) where
  | ok (a : α)
  | err (e : DbErr)
  | thrown (e : DbErr)
  deriving DecidableEq, Repr

/-- Store operations and terminal actions issued by the gating core, recorded
in execution order.  Every store operation carries the id used in its
ownership predicate (the .eq filter or insert/upsert payload column). -/
inductive Ev where
  | sessionCheck
  | entQuery (uid slug : String)
  | entListRead (uid : String)
  | profileRead (uid : String)
  | profileInsert (uid : String)
  | profileUpdate (uid : String)
  | progressRead (uid : String)
  | progressUpsert (uid slug : String)
  | redirect (dest : String)
  deriving DecidableEq, Repr

/-- Terminal result of a dispatch: control released to the page, or a
navigation to a destination (window.location.href assignment). -/
inductive Outcome where
  | allowed
  | redirected (dest : String)
  deriving DecidableEq, Repr

/-- Result record of ensureProfileExists: success flag, optional profile,
optional error, mirroring the untyped JS record. -/
structure EnsureResult where
  success : Bool
  profile : Option Profile
  error : Option DbErr
  deriving DecidableEq, Repr

/-- Responses of the data store to the (up to) three awaited calls inside
ensureProfileExists: the first maybeSingle read, the insert, and the
re-read after a unique violation.  Each await is a suspension point, so the
responses are independent inputs. -/
structure ProfileOracle where
  fetch1 : DbResp (Option Profile)
  insertResp : DbResp Unit
  fetch2 : DbResp (Option Profile)
  deriving DecidableEq, Repr

/-- The row ensureProfileExists inserts for a missing profile: id, email and
empty default fields. -/
def profileDefaults (userId email : String) : Profile :=
  { id := userId, email := email, full_name := "", avatar_url := "" }

/-- Second half of ensureProfileExists, entered when the first read found no
row: insert the default row; on unique violation 23505 re-read and return
whatever the re-read produced as a success (the JS ignores the re-read's
error field); on any other insert error fail with that error; a rejected
promise is caught by the outer try/catch and returned as a failure. -/
def ensureInsertPhase (po : ProfileOracle) (userId _email : String) :
    EnsureResult × List Ev :=
  match po.insertResp with
  | .thrown e =>
      ({ success := false, profile := none, error := some e },
       [.profileRead userId, .profileInsert userId])
  | .err e =>
      if e.code = "23505" then
        match po.fetch2 with
        | .thrown e2 =>
            ({ success := false, profile := none, error := some e2 },
             [.profileRead userId, .profileInsert userId, .profileRead userId])
        | .err _ =>
            ({ success := true, profile := none, error := none },
             [.profileRead userId, .profileInsert userId, .profileRead userId])
        | .ok p =>
            ({ success := true, profile := p, error := none },
             [.profileRead userId, .profileInsert userId, .profileRead userId])
      else
        ({ success := false, profile := none, error := some e },
         [.profileRead userId, .profileInsert userId])
  | .ok _ =>
      ({ success := true, profile := some (profileDefaults userId _email), error := none },
       [.profileRead userId, .profileInsert userId])

/-- ensureProfileExists (auth-spike.js lines 83-136): read the profile by id;
tolerate a PGRST116 error as no rows; return a found row unchanged; otherwise
insert the default row via ensureInsertPhase.  Any rejected promise is caught
and returned as a failure record. -/
def ensureProfileExists (po : ProfileOracle) (userId email : String) :
    EnsureResult × List Ev :=
  match po.fetch1 with
  | .thrown e =>
      ({ success := false, profile := none, error := some e }, [.profileRead userId])
  | .err e =>
      if e.code = "PGRST116" then ensureInsertPhase po userId email
      else ({ success := false, profile := none, error := some e }, [.profileRead userId])
  | .ok (some p) =>
      ({ success := true, profile := some p, error := none }, [.profileRead userId])
  | .ok none => ensureInsertPhase po userId email

/-- The page-scoped declarative inputs read by the gating code: the
data-protected attribute (none when no such element exists), the ?debug flag,
the courseSlug/moduleSlug/lessonSlug text carriers (none when the element is
missing or empty), and presence of the DOM elements that trigger the optional
reads of the account page. -/
structure Dom where
  protectedAttr : Option String
  debug : Bool
  courseSlug : Option String
  moduleSlug : Option String
  lessonSlug : Option String
  hasProfileForm : Bool
  hasFullNameEl : Bool
  hasEntitlementsEl : Bool
  hasProgressList : Bool
  deriving DecidableEq, Repr

/-- A row of the entitlements table, restricted to the columns the gating core
filters on. -/
structure EntRow where
  user_id : String
  course_slug : String
  deriving DecidableEq, Repr

/-- The entitlements store as seen by one dispatch: the table contents plus an
optional injected transport/query error for the entitlement query. -/
structure Db where
  entitlements : List EntRow
  entErr : Option DbErr
  deriving DecidableEq, Repr

/-- The entitlement query of handleCoursePageGating: select course_slug where
user_id = uid and course_slug = slug, limit 1.  A transport error yields the
error object; otherwise the filtered rows, truncated to one. -/
def entQueryResult (db : Db) (uid slug : String) : Except DbErr (List EntRow) :=
  match db.entErr with
  | some e => .error e
  | none =>
      .ok ((db.entitlements.filter
        (fun r => r.user_id == uid && r.course_slug == slug)).take 1)

/-- handleCoursePageGating (auth-spike.js lines 1159-1198): debug bypass
first; then the courseSlug carrier (a page without one is treated as not a
course page and passed through); then the session check; then the entitlement
membership query, failing closed to /no-access on error or empty result. -/
def handleCoursePageGating (dom : Dom) (session : Option Session) (db : Db) :
    Outcome × List Ev :=
  if dom.debug then (.allowed, [])
  else
    match dom.courseSlug with
    | none => (.allowed, [])
    | some slug =>
        match session with
        | none => (.redirected "/login", [.sessionCheck, .redirect "/login"])
        | some s =>
            match entQueryResult db s.user.id slug with
            | .error _ =>
                (.redirected "/no-access",
                 [.sessionCheck, .entQuery s.user.id slug, .redirect "/no-access"])
            | .ok rows =>
                if rows.isEmpty then
                  (.redirected "/no-access",
                   [.sessionCheck, .entQuery s.user.id slug, .redirect "/no-access"])
                else (.allowed, [.sessionCheck, .entQuery s.user.id slug])

/-- populateAccountPage (auth-spike.js lines 1203-1298): re-reads the session;
with no session it only logs; otherwise it conditionally reads the caller's
profile row (when the full-name element exists) and the caller's entitlement
list (when the entitlements element exists).  It never redirects; only its
trace of store reads matters here. -/
def populateAccountPage (dom : Dom) (session : Option Session) : List Ev :=
  match session with
  | none => [.sessionCheck]
  | some s =>
      [.sessionCheck]
        ++ (if dom.hasFullNameEl then [.profileRead s.user.id] else [])
        ++ (if dom.hasEntitlementsEl then [.entListRead s.user.id] else [])

/-- renderProgressOnAccount (auth-spike.js lines 1303-1347): re-reads the
session; when present and the progress list element exists, reads the
caller's completed lessons.  Never redirects. -/
def renderProgressOnAccount (dom : Dom) (session : Option Session) : List Ev :=
  match session with
  | none => [.sessionCheck]
  | some s =>
      [.sessionCheck] ++ (if dom.hasProgressList then [.progressRead s.user.id] else [])

/-- initializeProfileForm (auth-spike.js lines 407-486), load-time part: when
the profile form exists, runs ensureProfileExists for the session user and
populates the form; bootstrap failure surfaces feedback but never redirects. -/
def initProfileForm (dom : Dom) (s : Session) (po : ProfileOracle) :
    Outcome × List Ev :=
  if dom.hasProfileForm then
    (.allowed, (ensureProfileExists po s.user.id s.user.email).2)
  else (.allowed, [])

/-- The profile form submit handler (auth-spike.js lines 442-481): re-verifies
the session at submission time; with no session redirects to login; otherwise
updates the profiles row whose id equals the re-derived session user id. -/
def profileFormSubmit (session : Option Session) : Outcome × List Ev :=
  match session with
  | none => (.redirected "/login", [.sessionCheck, .redirect "/login"])
  | some s => (.allowed, [.sessionCheck, .profileUpdate s.user.id])

/-- The switch statement of initializePageProtection (auth-spike.js lines
527-563), entered after the needsAuth session check: true/basic do nothing
further; course delegates to handleCoursePageGating; account populates the
account page, renders progress and conditionally runs the profile form;
profile runs the profile form; an unknown kind warns and re-runs
requireAuthOrRedirect. -/
def dispatchSwitch (pt : String) (dom : Dom) (session : Option Session)
    (db : Db) (po : ProfileOracle) : Outcome × List Ev :=
  if pt = "true" ∨ pt = "basic" then (.allowed, [])
  else if pt = "course" then handleCoursePageGating dom session db
  else if pt = "account" then
    let evs := populateAccountPage dom session ++ renderProgressOnAccount dom session
    match session with
    | some s =>
        if dom.hasProfileForm then (.allowed, evs ++ (initProfileForm dom s po).2)
        else (.allowed, evs)
    | none => (.allowed, evs)
  else if pt = "profile" then
    match session with
    | some s => initProfileForm dom s po
    | none => (.allowed, [])
  else
    match session with
    | none => (.redirected "/login", [.sessionCheck, .redirect "/login"])
    | some _ => (.allowed, [.sessionCheck])

/-- initializePageProtection (auth-spike.js lines 500-564): no data-protected
element means no protection; the ?debug flag bypasses everything; kinds
true/basic/account/profile require a session up front (redirecting to login
when absent); then the switch on the protection kind runs. -/
def initPageProtection (dom : Dom) (session : Option Session) (db : Db)
    (po : ProfileOracle) : Outcome × List Ev :=
  match dom.protectedAttr with
  | none => (.allowed, [])
  | some pt =>
      if dom.debug then (.allowed, [])
      else if pt = "true" ∨ pt = "basic" ∨ pt = "account" ∨ pt = "profile" then
        match session with
        | none => (.redirected "/login", [.sessionCheck, .redirect "/login"])
        | some s =>
            let r := dispatchSwitch pt dom (some s) db po
            (r.1, .sessionCheck :: r.2)
      else dispatchSwitch pt dom session db po

/-- A row of the lesson_progress table, restricted to the columns the gating
core writes (the surrogate uuid primary key is never read by the code and is
omitted).  Timestamps are abstract instants. -/
structure ProgressRow where
  user_id : String
  course_slug : Option String
  module_slug : Option String
  lesson_slug : String
  completed : Bool
  completed_at : Option Nat
  last_viewed_at : Option Nat
  updated_at : Option Nat
  deriving DecidableEq, Repr

/-- Postgres upsert with onConflict (user_id, lesson_slug): when a row with
the payload's key exists, every conflicting row is overwritten with the
payload's columns; otherwise the payload is inserted. -/
def upsertProgress (store : List ProgressRow) (p : ProgressRow) : List ProgressRow :=
  if store.any (fun r => r.user_id == p.user_id && r.lesson_slug == p.lesson_slug) then
    store.map (fun r =>
      if r.user_id == p.user_id && r.lesson_slug == p.lesson_slug then p else r)
  else store ++ [p]

/-- markLessonComplete (auth-spike.js lines 589-644): no session or no
lessonSlug carrier means no write; otherwise upsert a completed row keyed on
(user_id, lesson_slug) with all three timestamps set to now. -/
def markLessonComplete (dom : Dom) (session : Option Session) (now : Nat)
    (store : List ProgressRow) : List ProgressRow × List Ev :=
  match session with
  | none => (store, [.sessionCheck])
  | some s =>
      match dom.lessonSlug with
      | none => (store, [.sessionCheck])
      | some l =>
          let payload : ProgressRow :=
            { user_id := s.user.id, course_slug := dom.courseSlug,
              module_slug := dom.moduleSlug, lesson_slug := l,
              completed := true, completed_at := some now,
              last_viewed_at := some now, updated_at := some now }
          (upsertProgress store payload,
           [.sessionCheck, .progressUpsert s.user.id l])

/-
Concurrent model of ensureProfileExists: several calls for the same identity
interleave against a live store that enforces uniqueness of the profile id.
Each awaited store call is one atomic step; between steps any other call may
run.  A call's local state records which store call it performs next.
-/

/-- The first maybeSingle read of ensureProfileExists against a live store. -/
def findProfile (store : List Profile) (uid : String) : Option Profile :=
  store.find? (fun p => p.id == uid)

/-- Local state of one in-flight ensureProfileExists call: about to perform
its first read; about to insert (first read found nothing); about to re-read
(insert hit unique violation 23505); or returned with its result record. -/
inductive CallSt where
  | start
  | needInsert
  | needRefetch
  | done (success : Bool) (profile : Option Profile)
  deriving DecidableEq, Repr

/-- One atomic store call of one ensureProfileExists invocation: read (return
a found row, else move to insert); insert (unique violation when a row with
the id exists, else append the default row and return it); re-read (return
whatever now exists). -/
def callStep (uid email : String) (store : List Profile) :
    CallSt → List Profile × CallSt
  | .start =>
      match findProfile store uid with
      | some p => (store, .done true (some p))
      | none => (store, .needInsert)
  | .needInsert =>
      if store.any (fun p => p.id == uid) then (store, .needRefetch)
      else (store ++ [profileDefaults uid email],
            .done true (some (profileDefaults uid email)))
  | .needRefetch => (store, .done true (findProfile store uid))
  | .done ok p => (store, .done ok p)

/-- Global state of the concurrent run: the shared profiles store and the
local state of each of the N calls. -/
structure GState where
  store : List Profile
  calls : List CallSt
  deriving DecidableEq, Repr

/-- Run one atomic step of call i (no-op when i is out of range). -/
def stepAt (uid email : String) (g : GState) (i : Nat) : GState :=
  match g.calls[i]? with
  | none => g
  | some c =>
      let sc := callStep uid email g.store c
      { store := sc.1, calls := g.calls.set i sc.2 }

/-- Run a schedule: a list of call indices, each performing its next atomic
store call in turn.  Any interleaving of the N calls is some schedule. -/
def runSched (uid email : String) (sched : List Nat) (g : GState) : GState :=
  match sched with
  | [] => g
  | i :: rest => runSched uid email rest (stepAt uid email g i)

/-- A call has returned. -/
def isDone : CallSt → Bool
  | .done _ _ => true
  | _ => false

/-- All calls of the run have returned. -/
def AllDone (g : GState) : Prop := ∀ c ∈ g.calls, isDone c = true

instance (g : GState) : Decidable (AllDone g) := by
  unfold AllDone; infer_instance

/-- Store part of the run invariant: every row for the identity is the
default row, and uniqueness holds (at most one such row). -/
def StoreInv (uid email : String) (store : List Profile) : Prop :=
  (∀ p ∈ store, p.id = uid → p = profileDefaults uid email) ∧
  store.countP (fun p => p.id == uid) ≤ 1

/-- Per-call part of the run invariant: a call about to re-read saw a unique
violation, so the row exists; a returned call carries success and the default
row, which is in the store. -/
def CallInv (uid email : String) (store : List Profile) : CallSt → Prop
  | .start => True
  | .needInsert => True
  | .needRefetch => profileDefaults uid email ∈ store
  | .done ok p =>
      ok = true ∧ p = some (profileDefaults uid email) ∧
      profileDefaults uid email ∈ store

/-- The run invariant. -/
def Inv (uid email : String) (g : GState) : Prop :=
  StoreInv uid email g.store ∧ ∀ c ∈ g.calls, CallInv uid email g.store c

/-! Helper lemmas for the concurrent-bootstrap invariant. -/

lemma findProfile_spec {store : List Profile} {uid : String} {p : Profile}
    (h : findProfile store uid = some p) : p ∈ store ∧ p.id = uid := by
  refine ⟨List.mem_of_find?_eq_some h, ?_⟩
  have hp := List.find?_some h
  simpa using hp

lemma findProfile_canon {store : List Profile} {uid email : String}
    (hA : ∀ p ∈ store, p.id = uid → p = profileDefaults uid email)
    (hmem : profileDefaults uid email ∈ store) :
    findProfile store uid = some (profileDefaults uid email) := by
  have hex : (store.find? (fun p => p.id == uid)).isSome = true := by
    rw [List.find?_isSome]
    exact ⟨profileDefaults uid email, hmem, by simp [profileDefaults]⟩
  obtain ⟨q, hq⟩ := Option.isSome_iff_exists.mp hex
  have hspec : q ∈ store ∧ q.id = uid := findProfile_spec hq
  have : q = profileDefaults uid email := hA q hspec.1 hspec.2
  rw [findProfile, hq, this]

lemma callInv_mono {uid email : String} {store store' : List Profile}
    {c : CallSt} (hsub : ∀ p ∈ store, p ∈ store')
    (h : CallInv uid email store c) : CallInv uid email store' c := by
  cases c with
  | start => trivial
  | needInsert => trivial
  | needRefetch => exact hsub _ h
  | done ok p => exact ⟨h.1, h.2.1, hsub _ h.2.2⟩

lemma inv_stepAt (uid email : String) (g : GState) (i : Nat)
    (h : Inv uid email g) : Inv uid email (stepAt uid email g i) := by
  obtain ⟨⟨hA, hcount⟩, hcalls⟩ := h
  unfold stepAt
  cases hg : g.calls[i]? with
  | none => exact ⟨⟨hA, hcount⟩, hcalls⟩
  | some c =>
    have hcmem : c ∈ g.calls := List.getElem?_mem hg
    have hcinv : CallInv uid email g.store c := hcalls c hcmem
    cases c with
    | start =>
      simp only [callStep]
      cases hf : findProfile g.store uid with
      | some p =>
        obtain ⟨hpmem, hpid⟩ := findProfile_spec hf
        have hpc : p = profileDefaults uid email := hA p hpmem hpid
        refine ⟨⟨hA, hcount⟩, ?_⟩
        intro c' hc'
        rcases List.mem_or_eq_of_mem_set hc' with hold | rfl
        · exact hcalls c' hold
        · exact ⟨rfl, by rw [hpc], by rw [← hpc]; exact hpmem⟩
      | none =>
        refine ⟨⟨hA, hcount⟩, ?_⟩
        intro c' hc'
        rcases List.mem_or_eq_of_mem_set hc' with hold | rfl
        · exact hcalls c' hold
        · trivial
    | needInsert =>
      simp only [callStep]
      by_cases hany : (g.store.any fun p => p.id == uid) = true
      · simp only [if_pos hany]
        obtain ⟨p, hpmem, hpid⟩ := List.any_eq_true.mp hany
        have hpid' : p.id = uid := by simpa using hpid
        have hpc : p = profileDefaults uid email := hA p hpmem hpid'
        refine ⟨⟨hA, hcount⟩, ?_⟩
        intro c' hc'
        rcases List.mem_or_eq_of_mem_set hc' with hold | rfl
        · exact hcalls c' hold
        · show profileDefaults uid email ∈ g.store
          rw [← hpc]
          exact hpmem
      · simp only [if_neg hany]
        have hzero : g.store.countP (fun p => p.id == uid) = 0 := by
          rw [List.countP_eq_zero]
          intro a ha
          intro hcon
          exact hany (List.any_eq_true.mpr ⟨a, ha, hcon⟩)
        have hsub : ∀ p ∈ g.store, p ∈ g.store ++ [profileDefaults uid email] := by
          intro p hp; exact List.mem_append.mpr (Or.inl hp)
        have hmemnew : profileDefaults uid email ∈
            g.store ++ [profileDefaults uid email] := by
          exact List.mem_append.mpr (Or.inr (List.mem_singleton.mpr rfl))
        refine ⟨⟨?_, ?_⟩, ?_⟩
        · intro p hp hpid
          rcases List.mem_append.mp hp with hold | hnew
          · exact hA p hold hpid
          · exact List.mem_singleton.mp hnew
        · show (g.store ++ [profileDefaults uid email]).countP
            (fun p => p.id == uid) ≤ 1
          rw [List.countP_append, hzero]
          simp [profileDefaults]
        · intro c' hc'
          rcases List.mem_or_eq_of_mem_set hc' with hold | rfl
          · exact callInv_mono hsub (hcalls c' hold)
          · exact ⟨rfl, rfl, hmemnew⟩
    | needRefetch =>
      simp only [callStep]
      have hfc : findProfile g.store uid = some (profileDefaults uid email) :=
        findProfile_canon hA hcinv
      refine ⟨⟨hA, hcount⟩, ?_⟩
      intro c' hc'
      rcases List.mem_or_eq_of_mem_set hc' with hold | rfl
      · exact hcalls c' hold
      · exact ⟨rfl, by rw [hfc], hcinv⟩
    | done ok p =>
      simp only [callStep]
      refine ⟨⟨hA, hcount⟩, ?_⟩
      intro c' hc'
      rcases List.mem_or_eq_of_mem_set hc' with hold | rfl
      · exact hcalls c' hold
      · exact hcinv

lemma inv_runSched (uid email : String) (sched : List Nat) (g : GState)
    (h : Inv uid email g) : Inv uid email (runSched uid email sched g) := by
  induction sched generalizing g with
  | nil => exact h
  | cons i rest ih => exact ih _ (inv_stepAt uid email g i h)

lemma calls_length_stepAt (uid email : String) (g : GState) (i : Nat) :
    (stepAt uid email g i).calls.length = g.calls.length := by
  unfold stepAt
  cases hg : g.calls[i]? with
  | none => rfl
  | some c => simp [List.length_set]

lemma calls_length_runSched (uid email : String) (sched : List Nat) (g : GState) :
    (runSched uid email sched g).calls.length = g.calls.length := by
  induction sched generalizing g with
  | nil => rfl
  | cons i rest ih =>
    rw [runSched, ih, calls_length_stepAt]

/-! Theorems about the protection dispatcher. -/

/-- C1: for a page-load dispatch of kind course with a resource key present
and a session present, no matching entitlement pair yields a redirect to
/no-access, and a matching pair yields Allowed with no redirect issued. -/
theorem course_dispatch_decided_by_entitlement (dom : Dom) (s : Session)
    (slug : String) (ents : List EntRow) (po : ProfileOracle)
    (hpt : dom.protectedAttr = some "course") (hdbg : dom.debug = false)
    (hslug : dom.courseSlug = some slug) :
    ((¬ ∃ r ∈ ents, r.user_id = s.user.id ∧ r.course_slug = slug) →
      initPageProtection dom (some s) ⟨ents, none⟩ po =
        (.redirected "/no-access",
         [.sessionCheck, .entQuery s.user.id slug, .redirect "/no-access"])) ∧
    ((∃ r ∈ ents, r.user_id = s.user.id ∧ r.course_slug = slug) →
      initPageProtection dom (some s) ⟨ents, none⟩ po =
        (.allowed, [.sessionCheck, .entQuery s.user.id slug])) := by
  have hmatch : ∀ r : EntRow,
      (r.user_id == s.user.id && r.course_slug == slug) = true ↔
      (r.user_id = s.user.id ∧ r.course_slug = slug) := by
    intro r; simp
  constructor
  · intro hno
    have hfil : ents.filter (fun r => r.user_id == s.user.id && r.course_slug == slug) = [] := by
      rw [List.filter_eq_nil_iff]
      intro r hr hcon
      exact hno ⟨r, hr, (hmatch r).mp hcon⟩
    simp [initPageProtection, hpt, hdbg, dispatchSwitch, handleCoursePageGating,
      hslug, entQueryResult, hfil]
  · intro hyes
    obtain ⟨r, hr, hru, hrc⟩ := hyes
    have hne : ents.filter (fun r => r.user_id == s.user.id && r.course_slug == slug) ≠ [] := by
      intro hnil
      have := List.filter_eq_nil_iff.mp hnil r hr
      exact this ((hmatch r).mpr ⟨hru, hrc⟩)
    have htake : ((ents.filter
        (fun r => r.user_id == s.user.id && r.course_slug == slug)).take 1).isEmpty = false := by
      cases hf : ents.filter (fun r => r.user_id == s.user.id && r.course_slug == slug) with
      | nil => exact absurd hf hne
      | cons a t => simp [List.take]
    simp [initPageProtection, hpt, hdbg, dispatchSwitch, handleCoursePageGating,
      hslug, entQueryResult, htake]

/-- C1 witness: the spec scenario.  With no entitlement for (U1, course-101)
the dispatch redirects to /no-access; with the pair inserted it allows. -/
theorem course_dispatch_decided_by_entitlement_witness :
    (initPageProtection
        ⟨some "course", false, some "course-101", none, none, false, false, false, false⟩
        (some ⟨⟨"U1", "u1@example.com"⟩⟩) ⟨[], none⟩ ⟨.ok none, .ok (), .ok none⟩ =
      (.redirected "/no-access",
       [.sessionCheck, .entQuery "U1" "course-101", .redirect "/no-access"])) ∧
    (initPageProtection
        ⟨some "course", false, some "course-101", none, none, false, false, false, false⟩
        (some ⟨⟨"U1", "u1@example.com"⟩⟩) ⟨[⟨"U1", "course-101"⟩], none⟩
        ⟨.ok none, .ok (), .ok none⟩ =
      (.allowed, [.sessionCheck, .entQuery "U1" "course-101"])) :=
  ⟨(course_dispatch_decided_by_entitlement _ _ "course-101" [] _ rfl rfl rfl).1
      (by simp),
   (course_dispatch_decided_by_entitlement _ _ "course-101" [⟨"U1", "course-101"⟩] _
      rfl rfl rfl).2 ⟨⟨"U1", "course-101"⟩, by simp, rfl, rfl⟩⟩

/-- C3: the entitlement check fails closed.  A transport/query error on the
entitlement lookup makes the dispatch redirect to /no-access; in particular
the error branch never produces Allowed. -/
theorem entitlement_error_fails_closed (dom : Dom) (s : Session) (slug : String)
    (ents : List EntRow) (e : DbErr) (po : ProfileOracle)
    (hpt : dom.protectedAttr = some "course") (hdbg : dom.debug = false)
    (hslug : dom.courseSlug = some slug) :
    initPageProtection dom (some s) ⟨ents, some e⟩ po =
      (.redirected "/no-access",
       [.sessionCheck, .entQuery s.user.id slug, .redirect "/no-access"]) ∧
    (initPageProtection dom (some s) ⟨ents, some e⟩ po).1 ≠ Outcome.allowed := by
  have h : initPageProtection dom (some s) ⟨ents, some e⟩ po =
      (.redirected "/no-access",
       [.sessionCheck, .entQuery s.user.id slug, .redirect "/no-access"]) := by
    simp [initPageProtection, hpt, hdbg, dispatchSwitch, handleCoursePageGating,
      hslug, entQueryResult]
  exact ⟨h, by rw [h]; simp⟩

/-- C3 witness: a transport error at a concrete input redirects to /no-access
even though the entitlement pair is present in the table. -/
theorem entitlement_error_fails_closed_witness :
    initPageProtection
        ⟨some "course", false, some "course-101", none, none, false, false, false, false⟩
        (some ⟨⟨"U1", "u1@example.com"⟩⟩) ⟨[⟨"U1", "course-101"⟩], some ⟨"503"⟩⟩
        ⟨.ok none, .ok (), .ok none⟩ =
      (.redirected "/no-access",
       [.sessionCheck, .entQuery "U1" "course-101", .redirect "/no-access"]) :=
  (entitlement_error_fails_closed _ _ "course-101" [⟨"U1", "course-101"⟩] ⟨"503"⟩ _
    rfl rfl rfl).1

/-- C8: with the debug bypass flag set, every dispatch is Allowed with an
empty trace: no session lookup, no entitlement query, no store operation. -/
theorem debug_bypass_allows_everything (dom : Dom) (session : Option Session)
    (db : Db) (po : ProfileOracle) (hdbg : dom.debug = true) :
    initPageProtection dom session db po = (.allowed, []) := by
  unfold initPageProtection
  cases dom.protectedAttr <;> simp [hdbg]

/-- C8 witness: debug bypass at a concrete course dispatch with no session
and an erroring entitlement store still yields Allowed with no calls. -/
theorem debug_bypass_allows_everything_witness :
    initPageProtection
        ⟨some "course", true, some "course-101", none, none, false, false, false, false⟩
        none ⟨[], some ⟨"503"⟩⟩ ⟨.ok none, .ok (), .ok none⟩ = (.allowed, []) :=
  debug_bypass_allows_everything _ none _ _ rfl

/-- C9: a course-kind dispatch with no resource key declared on the page is a
pass-through: Allowed, with no entitlement query and no redirect (in fact no
store call at all). -/
theorem course_without_resource_key_passes (dom : Dom) (session : Option Session)
    (db : Db) (po : ProfileOracle)
    (hpt : dom.protectedAttr = some "course") (hslug : dom.courseSlug = none) :
    initPageProtection dom session db po = (.allowed, []) := by
  cases hdbg : dom.debug with
  | true => exact debug_bypass_allows_everything dom session db po hdbg
  | false =>
      simp [initPageProtection, hpt, hdbg, dispatchSwitch, handleCoursePageGating, hslug]

/-- C9 witness: concrete course page without a resource key, anonymous
caller, entitlements table nonempty: pass-through with empty trace. -/
theorem course_without_resource_key_passes_witness :
    initPageProtection
        ⟨some "course", false, none, none, none, false, false, false, false⟩
        none ⟨[⟨"U1", "course-101"⟩], none⟩ ⟨.ok none, .ok (), .ok none⟩ =
      (.allowed, []) :=
  course_without_resource_key_passes _ none _ _ rfl rfl

/-- C2 counterexample: a course-kind page (protection kind not none) with no
resource key and no session is passed through, not redirected to login, so
the claim that every non-none kind redirects anonymous callers to login is
false on the code. -/
theorem no_session_claim_counterexample :
    (initPageProtection
        ⟨some "course", false, none, none, none, false, false, false, false⟩
        none ⟨[], none⟩ ⟨.ok none, .ok (), .ok none⟩).1 = Outcome.allowed ∧
    (initPageProtection
        ⟨some "course", false, none, none, none, false, false, false, false⟩
        none ⟨[], none⟩ ⟨.ok none, .ok (), .ok none⟩).1 ≠
      Outcome.redirected "/login" := by
  exact ⟨by decide, by decide⟩

/-- C2 amended: for every declared protection kind, with the debug bypass
unset and — for course kind — a resource key present, an anonymous dispatch
redirects to login, and its whole trace is the session check followed by the
redirect: no entitlement query and no profile-bootstrap write happens at
all, in particular not before the session check resolves. -/
theorem no_session_redirects_to_login (dom : Dom) (pt : String) (db : Db)
    (po : ProfileOracle)
    (hpt : dom.protectedAttr = some pt) (hdbg : dom.debug = false)
    (hcourse : pt = "course" → dom.courseSlug.isSome) :
    initPageProtection dom none db po =
      (.redirected "/login", [.sessionCheck, .redirect "/login"]) := by
  unfold initPageProtection
  rw [hpt]
  simp only [hdbg, Bool.false_eq_true, if_false]
  by_cases hauth : pt = "true" ∨ pt = "basic" ∨ pt = "account" ∨ pt = "profile"
  · rw [if_pos hauth]
  · rw [if_neg hauth]
    unfold dispatchSwitch
    have h1 : ¬(pt = "true" ∨ pt = "basic") := by tauto
    have h3 : ¬pt = "account" := by tauto
    have h4 : ¬pt = "profile" := by tauto
    rw [if_neg h1]
    by_cases h2 : pt = "course"
    · rw [if_pos h2]
      obtain ⟨slug, hslug⟩ := Option.isSome_iff_exists.mp (hcourse h2)
      simp [handleCoursePageGating, hdbg, hslug]
    · rw [if_neg h2, if_neg h3, if_neg h4]

/-- C2 amended witness: an anonymous dispatch of a basic-kind page redirects
to login with the session check as the only preceding step. -/
theorem no_session_redirects_to_login_witness :
    initPageProtection
        ⟨some "basic", false, none, none, none, false, false, false, false⟩
        none ⟨[], none⟩ ⟨.ok none, .ok (), .ok none⟩ =
      (.redirected "/login", [.sessionCheck, .redirect "/login"]) :=
  no_session_redirects_to_login _ "basic" _ _ rfl rfl (by decide)

/-! Theorems about the profile bootstrap. -/

/-- C4: ensureProfileExists follows the specified algorithm: a found row is
returned with no write; a missing row is inserted with default field values;
an insert failing with unique violation 23505 is healed by a re-read whose
row is returned as a success; any other insert error is returned as a
bootstrap failure. -/
theorem ensureProfile_algorithm (po : ProfileOracle) (uid email : String) :
    (∀ p, po.fetch1 = .ok (some p) →
      ensureProfileExists po uid email =
        ({ success := true, profile := some p, error := none },
         [.profileRead uid])) ∧
    (po.fetch1 = .ok none → po.insertResp = .ok () →
      ensureProfileExists po uid email =
        ({ success := true, profile := some (profileDefaults uid email), error := none },
         [.profileRead uid, .profileInsert uid])) ∧
    (∀ p, po.fetch1 = .ok none → po.insertResp = .err ⟨"23505"⟩ →
      po.fetch2 = .ok (some p) →
      ensureProfileExists po uid email =
        ({ success := true, profile := some p, error := none },
         [.profileRead uid, .profileInsert uid, .profileRead uid])) ∧
    (∀ e, po.fetch1 = .ok none → po.insertResp = .err e → e.code ≠ "23505" →
      ensureProfileExists po uid email =
        ({ success := false, profile := none, error := some e },
         [.profileRead uid, .profileInsert uid])) := by
  refine ⟨?_, ?_, ?_, ?_⟩
  · intro p h1
    simp [ensureProfileExists, h1]
  · intro h1 h2
    simp [ensureProfileExists, ensureInsertPhase, h1, h2]
  · intro p h1 h2 h3
    simp [ensureProfileExists, ensureInsertPhase, h1, h2, h3]
  · intro e h1 h2 h3
    simp [ensureProfileExists, ensureInsertPhase, h1, h2, h3]

/-- C4 witness: the four algorithm clauses evaluated on concrete oracles: a
found row, a clean insert, a healed 23505 race, and a non-unique-violation
insert error. -/
theorem ensureProfile_algorithm_witness :
    (ensureProfileExists ⟨.ok (some ⟨"U3", "u3@example.com", "N", ""⟩), .ok (), .ok none⟩
        "U3" "u3@example.com" =
      ({ success := true, profile := some ⟨"U3", "u3@example.com", "N", ""⟩, error := none },
       [.profileRead "U3"])) ∧
    (ensureProfileExists ⟨.ok none, .ok (), .ok none⟩ "U3" "u3@example.com" =
      ({ success := true, profile := some (profileDefaults "U3" "u3@example.com"),
         error := none },
       [.profileRead "U3", .profileInsert "U3"])) ∧
    (ensureProfileExists ⟨.ok none, .err ⟨"23505"⟩,
        .ok (some ⟨"U3", "u3@example.com", "", ""⟩)⟩ "U3" "u3@example.com" =
      ({ success := true, profile := some ⟨"U3", "u3@example.com", "", ""⟩, error := none },
       [.profileRead "U3", .profileInsert "U3", .profileRead "U3"])) ∧
    (ensureProfileExists ⟨.ok none, .err ⟨"42P01"⟩, .ok none⟩ "U3" "u3@example.com" =
      ({ success := false, profile := none, error := some ⟨"42P01"⟩ },
       [.profileRead "U3", .profileInsert "U3"])) :=
  ⟨(ensureProfile_algorithm _ "U3" "u3@example.com").1 _ rfl,
   (ensureProfile_algorithm _ "U3" "u3@example.com").2.1 rfl rfl,
   (ensureProfile_algorithm _ "U3" "u3@example.com").2.2.1 _ rfl rfl rfl,
   (ensureProfile_algorithm _ "U3" "u3@example.com").2.2.2 _ rfl rfl (by decide)⟩

/-- C10 counterexample: when the first read finds nothing, the insert fails
with unique violation 23505, and the healing re-read itself fails, the code
returns success = true with no profile and no error, so the claim that a
successful result always carries a profile is false on the code. -/
theorem ensure_success_without_profile :
    (ensureProfileExists ⟨.ok none, .err ⟨"23505"⟩, .err ⟨"503"⟩⟩
        "U9" "u9@example.com").1 =
      { success := true, profile := none, error := none } := by
  decide

/-- C10 amended: ensureProfileExists is total at its interface and never
propagates an exception: a rejected promise at the first read becomes a
failure record; every failure carries the causing error; every success
carries a profile except on the degenerate 23505-healing path whose re-read
produced no row, where success is returned with no profile and no error. -/
theorem ensure_total_result (po : ProfileOracle) (uid email : String) :
    ((ensureProfileExists po uid email).1.success = false →
      (ensureProfileExists po uid email).1.error.isSome = true) ∧
    ((ensureProfileExists po uid email).1.success = true →
      ((ensureProfileExists po uid email).1.profile.isSome = true ∨
       ((∃ e, po.insertResp = DbResp.err e ∧ e.code = "23505") ∧
        (ensureProfileExists po uid email).1.profile = none ∧
        (ensureProfileExists po uid email).1.error = none))) ∧
    (∀ e, po.fetch1 = DbResp.thrown e →
      (ensureProfileExists po uid email).1 =
        { success := false, profile := none, error := some e }) := by
  rcases po with ⟨f1, ir, f2⟩
  refine ⟨?_, ?_, ?_⟩
  · intro hs
    unfold ensureProfileExists ensureInsertPhase at *
    cases f1 with
    | thrown e1 => simp
    | err e1 =>
        by_cases hc : e1.code = "PGRST116" <;> simp [hc] at hs ⊢ <;>
        cases ir <;> simp_all <;> split at hs <;> simp_all <;>
        cases f2 <;> simp_all
    | ok a =>
        cases a with
        | some p => simp at hs
        | none =>
            simp at hs ⊢
            cases ir <;> simp_all <;> split at hs <;> simp_all <;>
            cases f2 <;> simp_all
  · intro hs
    unfold ensureProfileExists ensureInsertPhase at *
    cases f1 with
    | thrown e1 => simp at hs
    | err e1 =>
        by_cases hc : e1.code = "PGRST116" <;> simp [hc] at hs ⊢
        cases ir with
        | thrown e2 => simp_all
        | ok u => simp_all
        | err e2 =>
            by_cases hc2 : e2.code = "23505" <;> simp [hc2] at hs ⊢
            cases f2 with
            | thrown e3 => simp_all
            | err e3 => simp_all
            | ok p => cases p <;> simp_all
    | ok a =>
        cases a with
        | some p => simp
        | none =>
            simp at hs ⊢
            cases ir with
            | thrown e2 => simp_all
            | ok u => simp_all
            | err e2 =>
                by_cases hc2 : e2.code = "23505" <;> simp [hc2] at hs ⊢
                cases f2 with
                | thrown e3 => simp_all
                | err e3 => simp_all
                | ok p => cases p <;> simp_all
  · intro e he
    rw [ensureProfileExists]
    simp at he
    rw [he]

/-- C10 amended witness: a rejected first read at a concrete input becomes a
failure record carrying the exception. -/
theorem ensure_total_result_witness :
    (ensureProfileExists ⟨.thrown ⟨"NET"⟩, .ok (), .ok none⟩
        "U9" "u9@example.com").1 =
      { success := false, profile := none, error := some ⟨"NET"⟩ } :=
  (ensure_total_result _ "U9" "u9@example.com").2.2 ⟨"NET"⟩ rfl

/-- C5: N concurrent ensureProfileExists calls for the same never-before-seen
identity, interleaved in any schedule against a store enforcing uniqueness of
the profile id: once all calls have completed, exactly one profile row for
that identity exists, and every call has returned success carrying that
row. -/
theorem ensureProfile_concurrent_exactly_once (uid email : String)
    (store0 : List Profile) (n : Nat) (sched : List Nat)
    (h0 : ∀ p ∈ store0, p.id ≠ uid) (hn : 1 ≤ n)
    (hdone : AllDone (runSched uid email sched ⟨store0, List.replicate n CallSt.start⟩)) :
    (runSched uid email sched ⟨store0, List.replicate n CallSt.start⟩).store.countP
        (fun p => p.id == uid) = 1 ∧
    ∀ c ∈ (runSched uid email sched ⟨store0, List.replicate n CallSt.start⟩).calls,
      c = CallSt.done true (some (profileDefaults uid email)) := by
  have hinv0 : Inv uid email ⟨store0, List.replicate n CallSt.start⟩ := by
    refine ⟨⟨?_, ?_⟩, ?_⟩
    · intro p hp hpid
      exact absurd hpid (h0 p hp)
    · have hz : store0.countP (fun p => p.id == uid) = 0 := by
        rw [List.countP_eq_zero]
        intro a ha hcon
        exact h0 a ha (by simpa using hcon)
      rw [hz]
      exact Nat.zero_le 1
    · intro c hc
      rw [(List.mem_replicate.mp hc).2]
      trivial
  have hinv := inv_runSched uid email sched _ hinv0
  set g := runSched uid email sched ⟨store0, List.replicate n CallSt.start⟩ with hgdef
  obtain ⟨⟨hA, hcount⟩, hcalls⟩ := hinv
  have hdoneAll : ∀ c ∈ g.calls,
      c = CallSt.done true (some (profileDefaults uid email)) := by
    intro c hc
    have hd := hdone c hc
    have hci := hcalls c hc
    cases c with
    | start => simp [isDone] at hd
    | needInsert => simp [isDone] at hd
    | needRefetch => simp [isDone] at hd
    | done ok p =>
        obtain ⟨h1, h2, _⟩ := hci
        rw [h1, h2]
  refine ⟨?_, hdoneAll⟩
  have hlen : g.calls.length = n := by
    rw [hgdef, calls_length_runSched]
    simp
  have hne : g.calls ≠ [] := by
    intro hnil
    rw [hnil] at hlen
    simp at hlen
    omega
  obtain ⟨c, hc⟩ := List.exists_mem_of_ne_nil g.calls hne
  have hci := hcalls c hc
  rw [hdoneAll c hc] at hci
  obtain ⟨-, -, hmem⟩ := hci
  have hpos : 0 < g.store.countP (fun p => p.id == uid) :=
    List.countP_pos_iff.mpr
      ⟨profileDefaults uid email, hmem, by simp [profileDefaults]⟩
  omega

/-- C5 witness: the spec scenario with two interleaved calls for the fresh
identity U2 on an empty table: both read nothing, one inserts, the other hits
the unique violation and heals; the table ends with exactly one U2 row. -/
theorem ensureProfile_concurrent_exactly_once_witness :
    (1 ≤ 2 ∧
      AllDone (runSched "U2" "u2@example.com" [0, 1, 0, 1, 1]
        ⟨[], List.replicate 2 CallSt.start⟩)) ∧
    (runSched "U2" "u2@example.com" [0, 1, 0, 1, 1]
        ⟨[], List.replicate 2 CallSt.start⟩).store.countP
      (fun p => p.id == "U2") = 1 :=
  ⟨⟨by decide, by decide⟩,
   (ensureProfile_concurrent_exactly_once "U2" "u2@example.com" [] 2 [0, 1, 0, 1, 1]
      (by simp) (by decide) (by decide)).1⟩

/-! Theorems about the progress recorder. -/

/-- The non-timestamp columns of a progress row. -/
def stripTs (r : ProgressRow) :
    String × Option String × Option String × String × Bool :=
  (r.user_id, r.course_slug, r.module_slug, r.lesson_slug, r.completed)

lemma upsert_mem_self (store : List ProgressRow) (p : ProgressRow) :
    p ∈ upsertProgress store p := by
  unfold upsertProgress
  by_cases h : (store.any fun r =>
      r.user_id == p.user_id && r.lesson_slug == p.lesson_slug) = true
  · rw [if_pos h]
    obtain ⟨r, hr, hkey⟩ := List.any_eq_true.mp h
    exact List.mem_map.mpr ⟨r, hr, by rw [if_pos hkey]⟩
  · rw [if_neg h]
    exact List.mem_append.mpr (Or.inr (by simp))

lemma upsert_matching_eq (store : List ProgressRow) (p r : ProgressRow)
    (hr : r ∈ upsertProgress store p)
    (hkey : (r.user_id == p.user_id && r.lesson_slug == p.lesson_slug) = true) :
    r = p := by
  unfold upsertProgress at hr
  by_cases h : (store.any fun x =>
      x.user_id == p.user_id && x.lesson_slug == p.lesson_slug) = true
  · rw [if_pos h] at hr
    obtain ⟨x, hx, hxr⟩ := List.mem_map.mp hr
    by_cases hxk : (x.user_id == p.user_id && x.lesson_slug == p.lesson_slug) = true
    · rw [if_pos hxk] at hxr
      exact hxr.symm
    · rw [if_neg hxk] at hxr
      rw [← hxr] at hkey
      exact absurd hkey hxk
  · rw [if_neg h] at hr
    rcases List.mem_append.mp hr with hx | hx
    · exact absurd (List.any_eq_true.mpr ⟨r, hx, hkey⟩) h
    · exact List.mem_singleton.mp hx

lemma upsert_of_any_true (store : List ProgressRow) (p : ProgressRow)
    (h : (store.any fun r =>
      r.user_id == p.user_id && r.lesson_slug == p.lesson_slug) = true) :
    upsertProgress store p = store.map (fun r =>
      if r.user_id == p.user_id && r.lesson_slug == p.lesson_slug then p else r) := by
  unfold upsertProgress
  rw [if_pos h]

lemma upsert_countP (store : List ProgressRow) (p : ProgressRow)
    (h1 : store.countP (fun r =>
      r.user_id == p.user_id && r.lesson_slug == p.lesson_slug) ≤ 1) :
    (upsertProgress store p).countP
      (fun r => r.user_id == p.user_id && r.lesson_slug == p.lesson_slug) = 1 := by
  unfold upsertProgress
  by_cases h : (store.any fun r =>
      r.user_id == p.user_id && r.lesson_slug == p.lesson_slug) = true
  · rw [if_pos h]
    rw [List.countP_map]
    have hcong : store.countP
        ((fun r => r.user_id == p.user_id && r.lesson_slug == p.lesson_slug) ∘
          (fun r => if r.user_id == p.user_id && r.lesson_slug == p.lesson_slug
            then p else r)) =
        store.countP (fun r => r.user_id == p.user_id && r.lesson_slug == p.lesson_slug) := by
      apply List.countP_congr
      intro r _
      by_cases hk : (r.user_id == p.user_id && r.lesson_slug == p.lesson_slug) = true
      · simp [Function.comp, hk]
      · simp [Function.comp, hk]
    rw [hcong]
    obtain ⟨r, hrmem, hrkey⟩ := List.any_eq_true.mp h
    have hpos : 0 < store.countP
        (fun r => r.user_id == p.user_id && r.lesson_slug == p.lesson_slug) :=
      List.countP_pos_iff.mpr ⟨r, hrmem, hrkey⟩
    omega
  · rw [if_neg h]
    rw [List.countP_append]
    have hz : store.countP
        (fun r => r.user_id == p.user_id && r.lesson_slug == p.lesson_slug) = 0 := by
      rw [List.countP_eq_zero]
      intro a ha hcon
      exact h (List.any_eq_true.mpr ⟨a, ha, hcon⟩)
    rw [hz]
    simp

/-- C6: markLessonComplete is idempotent: a second call for the same
(identity, lesson) pair leaves the store equal modulo timestamps to the
store after one call, and exactly one row for the pair exists afterwards,
with completed = true. -/
theorem markComplete_idempotent (dom : Dom) (s : Session) (l : String)
    (t1 t2 : Nat) (store : List ProgressRow)
    (hl : dom.lessonSlug = some l)
    (huniq : store.countP
      (fun r => r.user_id == s.user.id && r.lesson_slug == l) ≤ 1) :
    ((markLessonComplete dom (some s) t2
        (markLessonComplete dom (some s) t1 store).1).1.map stripTs =
      (markLessonComplete dom (some s) t1 store).1.map stripTs) ∧
    ((markLessonComplete dom (some s) t2
        (markLessonComplete dom (some s) t1 store).1).1.countP
      (fun r => r.user_id == s.user.id && r.lesson_slug == l) = 1) ∧
    (∀ r ∈ (markLessonComplete dom (some s) t2
        (markLessonComplete dom (some s) t1 store).1).1,
      r.user_id = s.user.id → r.lesson_slug = l → r.completed = true) := by
  have hmark : ∀ t st, (markLessonComplete dom (some s) t st).1 =
      upsertProgress st
        { user_id := s.user.id, course_slug := dom.courseSlug,
          module_slug := dom.moduleSlug, lesson_slug := l,
          completed := true, completed_at := some t,
          last_viewed_at := some t, updated_at := some t } := by
    intro t st
    simp [markLessonComplete, hl]
  set p1 : ProgressRow :=
    { user_id := s.user.id, course_slug := dom.courseSlug,
      module_slug := dom.moduleSlug, lesson_slug := l, completed := true,
      completed_at := some t1, last_viewed_at := some t1,
      updated_at := some t1 } with hp1
  set p2 : ProgressRow :=
    { user_id := s.user.id, course_slug := dom.courseSlug,
      module_slug := dom.moduleSlug, lesson_slug := l, completed := true,
      completed_at := some t2, last_viewed_at := some t2,
      updated_at := some t2 } with hp2
  have hm1 : (markLessonComplete dom (some s) t1 store).1 = upsertProgress store p1 :=
    hmark t1 store
  have hm2 : (markLessonComplete dom (some s) t2
      (markLessonComplete dom (some s) t1 store).1).1 =
      upsertProgress (upsertProgress store p1) p2 := by
    rw [hm1] at *
    exact hmark t2 (upsertProgress store p1)
  have hkey12 : ∀ r : ProgressRow,
      (r.user_id == p2.user_id && r.lesson_slug == p2.lesson_slug) =
      (r.user_id == p1.user_id && r.lesson_slug == p1.lesson_slug) := by
    intro r
    rfl
  have hp1mem : p1 ∈ upsertProgress store p1 := upsert_mem_self store p1
  have hany : ((upsertProgress store p1).any fun r =>
      r.user_id == p2.user_id && r.lesson_slug == p2.lesson_slug) = true := by
    refine List.any_eq_true.mpr ⟨p1, hp1mem, ?_⟩
    rw [hkey12]
    simp
  have hmatching : ∀ r ∈ upsertProgress store p1,
      (r.user_id == p2.user_id && r.lesson_slug == p2.lesson_slug) = true →
      r = p1 := by
    intro r hr hk
    exact upsert_matching_eq store p1 r hr (by rw [← hkey12]; exact hk)
  refine ⟨?_, ?_, ?_⟩
  · rw [hm2, hm1]
    show (upsertProgress (upsertProgress store p1) p2).map stripTs =
      (upsertProgress store p1).map stripTs
    rw [upsert_of_any_true _ _ hany]
    rw [List.map_map]
    apply List.map_congr_left
    intro r hr
    by_cases hk : (r.user_id == p2.user_id && r.lesson_slug == p2.lesson_slug) = true
    · have : r = p1 := hmatching r hr hk
      subst this
      simp [Function.comp, hk, stripTs, hp1, hp2]
    · simp [Function.comp, hk]
  · rw [hm2]
    have hc1 : (upsertProgress store p1).countP
        (fun r => r.user_id == p1.user_id && r.lesson_slug == p1.lesson_slug) = 1 :=
      upsert_countP store p1 huniq
    have hc2 : (upsertProgress (upsertProgress store p1) p2).countP
        (fun r => r.user_id == p2.user_id && r.lesson_slug == p2.lesson_slug) = 1 := by
      apply upsert_countP
      rw [show (fun r : ProgressRow =>
        r.user_id == p2.user_id && r.lesson_slug == p2.lesson_slug) =
        (fun r : ProgressRow =>
          r.user_id == p1.user_id && r.lesson_slug == p1.lesson_slug) from
        funext hkey12]
      rw [hc1]
    exact hc2
  · intro r hr hru hrl
    rw [hm2] at hr
    have hk : (r.user_id == p2.user_id && r.lesson_slug == p2.lesson_slug) = true := by
      simp [hp2, hru, hrl]
    have : r = p2 := upsert_matching_eq (upsertProgress store p1) p2 r hr hk
    rw [this]

/-- C6 witness: two marks of lesson-1 for U1 on an empty store leave
identical stores modulo timestamps with exactly one completed row. -/
theorem markComplete_idempotent_witness :
    ((markLessonComplete
        ⟨some "course", false, some "course-101", some "m1", some "lesson-1",
         false, false, false, false⟩
        (some ⟨⟨"U1", "u1@example.com"⟩⟩) 1
        (markLessonComplete
          ⟨some "course", false, some "course-101", some "m1", some "lesson-1",
           false, false, false, false⟩
          (some ⟨⟨"U1", "u1@example.com"⟩⟩) 0 []).1).1.map stripTs =
      (markLessonComplete
        ⟨some "course", false, some "course-101", some "m1", some "lesson-1",
         false, false, false, false⟩
        (some ⟨⟨"U1", "u1@example.com"⟩⟩) 0 []).1.map stripTs) ∧
    ((markLessonComplete
        ⟨some "course", false, some "course-101", some "m1", some "lesson-1",
         false, false, false, false⟩
        (some ⟨⟨"U1", "u1@example.com"⟩⟩) 1
        (markLessonComplete
          ⟨some "course", false, some "course-101", some "m1", some "lesson-1",
           false, false, false, false⟩
          (some ⟨⟨"U1", "u1@example.com"⟩⟩) 0 []).1).1.countP
      (fun r => r.user_id == "U1" && r.lesson_slug == "lesson-1") = 1) :=
  ⟨(markComplete_idempotent _ ⟨⟨"U1", "u1@example.com"⟩⟩ "lesson-1" 0 1 []
      rfl (by decide)).1,
   (markComplete_idempotent _ ⟨⟨"U1", "u1@example.com"⟩⟩ "lesson-1" 0 1 []
      rfl (by decide)).2.1⟩

/-! Theorems about ownership of store operations. -/

/-- The identity used in the ownership predicate of a store operation; none
for events that touch no row (session checks, redirects). -/
def evOwner : Ev → Option String
  | .sessionCheck => none
  | .redirect _ => none
  | .entQuery uid _ => some uid
  | .entListRead uid => some uid
  | .profileRead uid => some uid
  | .profileInsert uid => some uid
  | .profileUpdate uid => some uid
  | .progressRead uid => some uid
  | .progressUpsert uid _ => some uid

lemma ensure_trace_cases (po : ProfileOracle) (uid email : String) :
    (ensureProfileExists po uid email).2 = [.profileRead uid] ∨
    (ensureProfileExists po uid email).2 = [.profileRead uid, .profileInsert uid] ∨
    (ensureProfileExists po uid email).2 =
      [.profileRead uid, .profileInsert uid, .profileRead uid] := by
  rcases po with ⟨f1, ir, f2⟩
  unfold ensureProfileExists ensureInsertPhase
  rcases f1 with a | e1 | e1
  · rcases a with - | p
    · rcases ir with u | e2 | e2
      · simp
      · dsimp only
        by_cases hc : e2.code = "23505"
        · rw [if_pos hc]
          rcases f2 with p | e3 | e3 <;> simp
        · rw [if_neg hc]
          simp
      · simp
    · simp
  · dsimp only
    by_cases hpg : e1.code = "PGRST116"
    · rw [if_pos hpg]
      rcases ir with u | e2 | e2
      · simp
      · dsimp only
        by_cases hc : e2.code = "23505"
        · rw [if_pos hc]
          rcases f2 with p | e3 | e3 <;> simp
        · rw [if_neg hc]
          simp
      · simp
    · rw [if_neg hpg]
      simp
  · simp

lemma ensure_trace_owner (po : ProfileOracle) (uid email : String) :
    ∀ e ∈ (ensureProfileExists po uid email).2,
      evOwner e = none ∨ evOwner e = some uid := by
  rcases ensure_trace_cases po uid email with h | h | h <;> rw [h] <;>
    simp [evOwner]

lemma populate_trace_owner (dom : Dom) (s : Session) :
    ∀ e ∈ populateAccountPage dom (some s),
      evOwner e = none ∨ evOwner e = some s.user.id := by
  unfold populateAccountPage
  by_cases h1 : dom.hasFullNameEl <;> by_cases h2 : dom.hasEntitlementsEl <;>
    simp [h1, h2, evOwner]

lemma render_trace_owner (dom : Dom) (s : Session) :
    ∀ e ∈ renderProgressOnAccount dom (some s),
      evOwner e = none ∨ evOwner e = some s.user.id := by
  unfold renderProgressOnAccount
  by_cases h : dom.hasProgressList <;> simp [h, evOwner]

lemma gating_trace_owner (dom : Dom) (session : Option Session) (db : Db)
    (s : Session) (hs : session = some s) :
    ∀ e ∈ (handleCoursePageGating dom session db).2,
      evOwner e = none ∨ evOwner e = some s.user.id := by
  subst hs
  unfold handleCoursePageGating
  by_cases hd : dom.debug
  · simp [hd]
  · rcases hslug : dom.courseSlug with - | slug
    · simp [hd]
    · rcases hq : entQueryResult db s.user.id slug with e | rows
      · simp [hd, hq, evOwner]
      · simp only [hd, Bool.false_eq_true, if_false, hq]
        by_cases hrows : rows.isEmpty = true <;> simp [hrows, evOwner]

lemma initProfileForm_trace_owner (dom : Dom) (s : Session) (po : ProfileOracle) :
    ∀ e ∈ (initProfileForm dom s po).2,
      evOwner e = none ∨ evOwner e = some s.user.id := by
  unfold initProfileForm
  by_cases h : dom.hasProfileForm
  · simp only [h, if_true]
    exact ensure_trace_owner po s.user.id s.user.email
  · simp [h]

lemma dispatchSwitch_trace_owner (pt : String) (dom : Dom) (db : Db)
    (po : ProfileOracle) (s : Session) :
    ∀ e ∈ (dispatchSwitch pt dom (some s) db po).2,
      evOwner e = none ∨ evOwner e = some s.user.id := by
  unfold dispatchSwitch
  by_cases h1 : pt = "true" ∨ pt = "basic"
  · simp [h1]
  · rw [if_neg h1]
    by_cases h2 : pt = "course"
    · rw [if_pos h2]
      exact gating_trace_owner dom (some s) db s rfl
    · rw [if_neg h2]
      by_cases h3 : pt = "account"
      · rw [if_pos h3]
        intro e he
        by_cases h4 : dom.hasProfileForm
        · simp only [h4, if_true] at he
          rcases List.mem_append.mp he with hx | hx
          · rcases List.mem_append.mp hx with hy | hy
            · exact populate_trace_owner dom s e hy
            · exact render_trace_owner dom s e hy
          · exact initProfileForm_trace_owner dom s po e hx
        · simp only [h4, Bool.false_eq_true, if_false] at he
          rcases List.mem_append.mp he with hy | hy
          · exact populate_trace_owner dom s e hy
          · exact render_trace_owner dom s e hy
      · rw [if_neg h3]
        by_cases h5 : pt = "profile"
        · rw [if_pos h5]
          exact initProfileForm_trace_owner dom s po
        · rw [if_neg h5]
          simp [evOwner]

/-- C7: every store operation issued by the gating core — the entitlement
query and list read, the profile read/insert/update, the progress read and
upsert — uses as its ownership predicate the identity id of the current
Session, for every page content whatsoever: the dispatcher, the progress
recorder and the profile-form submit handler are quantified over arbitrary
DOM carriers, and no trace event ever carries an id other than the session
user's. -/
theorem gating_store_ops_use_session_identity (dom : Dom) (db : Db)
    (po : ProfileOracle) (s : Session) (now : Nat) (store : List ProgressRow) :
    (∀ e ∈ (initPageProtection dom (some s) db po).2,
      evOwner e = none ∨ evOwner e = some s.user.id) ∧
    (∀ e ∈ (markLessonComplete dom (some s) now store).2,
      evOwner e = none ∨ evOwner e = some s.user.id) ∧
    (∀ e ∈ (profileFormSubmit (some s)).2,
      evOwner e = none ∨ evOwner e = some s.user.id) := by
  refine ⟨?_, ?_, ?_⟩
  · unfold initPageProtection
    rcases hpa : dom.protectedAttr with - | pt
    · simp
    · by_cases hd : dom.debug
      · simp [hd]
      · simp only [hd, Bool.false_eq_true, if_false]
        by_cases hauth : pt = "true" ∨ pt = "basic" ∨ pt = "account" ∨ pt = "profile"
        · rw [if_pos hauth]
          intro e he
          simp only [List.mem_cons] at he
          rcases he with rfl | he
          · left
            rfl
          · exact dispatchSwitch_trace_owner pt dom db po s e he
        · rw [if_neg hauth]
          exact dispatchSwitch_trace_owner pt dom db po s
  · unfold markLessonComplete
    rcases hl : dom.lessonSlug with - | l
    · simp [evOwner]
    · simp [evOwner]
  · unfold profileFormSubmit
    simp [evOwner]

/-- C7 witness: a concrete course dispatch issues its entitlement query with
the session identity U1 as the ownership predicate. -/
theorem gating_store_ops_use_session_identity_witness :
    evOwner (Ev.entQuery "U1" "course-101") = none ∨
    evOwner (Ev.entQuery "U1" "course-101") = some "U1" :=
  (gating_store_ops_use_session_identity
      ⟨some "course", false, some "course-101", none, none, false, false, false, false⟩
      ⟨[⟨"U1", "course-101"⟩], none⟩ ⟨.ok none, .ok (), .ok none⟩
      ⟨⟨"U1", "u1@example.com"⟩⟩ 0 []).1
    (Ev.entQuery "U1" "course-101") (by decide)

end AuthSpike
